import Mathlib

/-!
Verification of the runtime identity and call interposition layer of the
Claude Linux compatibility loader (`linux-loader.js`, together with the
sibling `stubs/frame-fix/frame-fix-wrapper.js`).

JavaScript strings are embedded as `List Char`.  `jsIncludes s pat` embeds
`s.includes(pat)`, `List.isPrefixOf` embeds `startsWith`, and
`List.isSuffixOf` embeds `endsWith`.
-/

/-- Embeds JavaScript `s.includes(pat)`: `pat` occurs as a contiguous
substring of `s`. -/
def jsIncludes : List Char → List Char → Bool
  | [], pat => pat.isEmpty
  | c :: t, pat => pat.isPrefixOf (c :: t) || jsIncludes t pat

theorem jsIncludes_iff {s pat : List Char} : jsIncludes s pat = true ↔ pat <:+: s := by
  induction s with
  | nil =>
    simp [jsIncludes, List.isEmpty_iff, List.infix_nil]
  | cons c t ih =>
    simp only [jsIncludes, Bool.or_eq_true, List.isPrefixOf_iff_prefix, ih,
      List.infix_cons_iff]

/-- The trusted provenance markers tested by `isSystemCall`
(linux-loader.js lines 108 to 116), in source order. -/
def trustedMarkers : List (List Char) :=
  ["node:internal".data, "internal/modules".data, "node:electron".data,
   "electron/js2c".data, "electron.asar".data, "linux-loader.js".data,
   "frame-fix-wrapper".data]

/-- Embeds `isSystemCall(stack)` (linux-loader.js lines 108 to 116): a chain
of `stack.includes(...)` tests over the seven marker literals, in order. -/
def isSystemCall (stack : List Char) : Bool :=
  trustedMarkers.any (fun m => jsIncludes stack m)

/-- Embeds JavaScript `frames.join("\n")`, the inverse of the frame split
performed by the identity accessors. -/
def joinFrames : List (List Char) → List Char
  | [] => []
  | [f] => f
  | f :: g :: rest => f ++ '\n' :: joinFrames (g :: rest)

/-- Classification of a captured stack description given as the sequence of
its frame lines: the source classifies the joined text with `isSystemCall`.
`true` is the trusted verdict, `false` is guest. -/
def classifyStack (frames : List (List Char)) : Bool :=
  isSystemCall (joinFrames frames)

theorem prefix_split_of_not_mem {α : Type} {c : α} :
    ∀ {m x y : List α}, c ∉ m → m <+: x ++ c :: y → m <+: x := by
  intro m
  induction m with
  | nil => intro x y _ _; exact List.nil_prefix
  | cons b m' ih =>
    intro x y hc hpre
    cases x with
    | nil =>
      rcases List.cons_prefix_cons.mp hpre with ⟨rfl, _⟩
      exact absurd (List.mem_cons_self _ _) hc
    | cons a x' =>
      rcases List.cons_prefix_cons.mp hpre with ⟨rfl, htail⟩
      have hc' : c ∉ m' := fun h => hc (List.mem_cons_of_mem _ h)
      exact List.cons_prefix_cons.mpr ⟨rfl, ih hc' htail⟩

theorem infix_split_of_not_mem {α : Type} {c : α} :
    ∀ {x m y : List α}, c ∉ m → m <:+: x ++ c :: y → m <:+: x ∨ m <:+: y := by
  intro x
  induction x with
  | nil =>
    intro m y hc hinf
    rw [List.nil_append, List.infix_cons_iff] at hinf
    rcases hinf with hpre | hinf
    · cases m with
      | nil => exact Or.inl List.nil_infix
      | cons b m' =>
        rcases List.cons_prefix_cons.mp hpre with ⟨rfl, _⟩
        exact absurd (List.mem_cons_self _ _) hc
    · exact Or.inr hinf
  | cons a x' ih =>
    intro m y hc hinf
    rw [List.cons_append, List.infix_cons_iff] at hinf
    rcases hinf with hpre | hinf
    · exact Or.inl (prefix_split_of_not_mem hc (x := a :: x') hpre).isInfix
    · rcases ih hc hinf with h | h
      · exact Or.inl (List.infix_cons h)
      · exact Or.inr h

theorem infix_joinFrames_of_mem {f : List Char} :
    ∀ {frames : List (List Char)}, f ∈ frames → f <:+: joinFrames frames := by
  intro frames
  induction frames with
  | nil => intro h; cases h
  | cons g rest ih =>
    intro hmem
    cases rest with
    | nil =>
      rcases List.mem_cons.mp hmem with rfl | h
      · exact List.infix_rfl
      · cases h
    | cons g2 rest2 =>
      rcases List.mem_cons.mp hmem with rfl | h
      · exact (List.prefix_append f _).isInfix
      · have h2 : joinFrames (g2 :: rest2) <:+: joinFrames (g :: g2 :: rest2) := by
          have heq : joinFrames (g :: g2 :: rest2)
              = (g ++ ['\n']) ++ joinFrames (g2 :: rest2) := by
            simp [joinFrames]
          rw [heq]
          exact (List.suffix_append _ _).isInfix
        exact (ih h).trans h2

theorem mem_of_infix_joinFrames {m : List Char} (hnl : ('\n') ∉ m) (hne : m ≠ []) :
    ∀ {frames : List (List Char)}, m <:+: joinFrames frames → ∃ f ∈ frames, m <:+: f := by
  intro frames
  induction frames with
  | nil =>
    intro h
    rw [joinFrames] at h
    exact absurd (List.infix_nil.mp h) hne
  | cons g rest ih =>
    intro h
    cases rest with
    | nil =>
      rw [joinFrames] at h
      exact ⟨g, List.mem_cons_self _ _, h⟩
    | cons g2 rest2 =>
      rw [joinFrames] at h
      rcases infix_split_of_not_mem hnl h with h1 | h2
      · exact ⟨g, List.mem_cons_self _ _, h1⟩
      · rcases ih h2 with ⟨f, hf, hinf⟩
        exact ⟨f, List.mem_cons_of_mem _ hf, hinf⟩

/-- C5: for every stack description given as a sequence of frame lines, the
classifier returns trusted if any frame contains a trusted provenance
marker, guest if no frame contains any marker, and guest for the empty
description. -/
theorem classifyStack_spec (frames : List (List Char)) :
    ((∃ f ∈ frames, ∃ m ∈ trustedMarkers, jsIncludes f m = true) →
      classifyStack frames = true)
    ∧ ((∀ f ∈ frames, ∀ m ∈ trustedMarkers, jsIncludes f m = false) →
      classifyStack frames = false)
    ∧ classifyStack [] = false := by
  refine ⟨?_, ?_, by decide⟩
  · rintro ⟨f, hf, m, hm, hincl⟩
    have hmf : m <:+: f := jsIncludes_iff.mp hincl
    have hfj : f <:+: joinFrames frames := infix_joinFrames_of_mem hf
    have : m <:+: joinFrames frames := hmf.trans hfj
    unfold classifyStack isSystemCall
    rw [List.any_eq_true]
    exact ⟨m, hm, jsIncludes_iff.mpr this⟩
  · intro hnone
    cases hcl : classifyStack frames with
    | false => rfl
    | true =>
      exfalso
      unfold classifyStack isSystemCall at hcl
      rw [List.any_eq_true] at hcl
      rcases hcl with ⟨m, hm, hincl⟩
      have hmarkers : ∀ m ∈ trustedMarkers, ('\n') ∉ m ∧ m ≠ [] := by decide
      have hminfo := hmarkers m hm
      rcases mem_of_infix_joinFrames hminfo.1 hminfo.2 (jsIncludes_iff.mp hincl)
        with ⟨f, hf, hinf⟩
      have := hnone f hf m hm
      rw [jsIncludes_iff.mpr hinf] at this
      exact Bool.true_eq_false.mp this

/-- Witness for C5: a one-frame stack naming a node internal module is
classified trusted; a one-frame application stack is classified guest. -/
theorem classifyStack_spec_witness :
    classifyStack [("  at foo (node:internal/modules/cjs/loader:1:1)".data)] = true
    ∧ classifyStack [("  at render (/app/main.js:10:3)".data)] = false := by
  constructor
  · exact (classifyStack_spec _).1
      ⟨("  at foo (node:internal/modules/cjs/loader:1:1)".data), by decide,
       ("node:internal".data), by decide, by decide⟩
  · exact (classifyStack_spec _).2.1 (by decide)

/-- Description of the real host at load time: the values that
`process.platform`, `process.arch` and the OS version query would report
before any patching.  The loader captures the first two once, as
`REAL_PLATFORM` and `REAL_ARCH` (linux-loader.js lines 98 to 99); it never
captures the real OS version. -/
structure HostEnv where
  platform : List Char
  arch : List Char
  osVersion : List Char

/-- Embeds JavaScript `stack.split('\n')` (empty pieces preserved, an empty
string splits to one empty piece). -/
def splitOnNL : List Char → List (List Char)
  | [] => [[]]
  | c :: rest =>
    if c = '\n' then [] :: splitOnNL rest
    else
      match splitOnNL rest with
      | [] => [[c]]
      | p :: ps => (c :: p) :: ps

/-- Embeds `stack.split('\n').slice(2).join('\n')`, the caller-frame text
each patched accessor classifies (linux-loader.js line 121). -/
def callerFrames (stack : List Char) : List Char :=
  joinFrames ((splitOnNL stack).drop 2)

/-- Embeds the patched `process.platform` getter (linux-loader.js lines
118 to 126): real platform for a trusted caller stack, the virtual value
darwin otherwise. -/
def platformGet (env : HostEnv) (stack : List Char) : List Char :=
  if isSystemCall (callerFrames stack) then env.platform else "darwin".data

/-- Embeds the patched `process.arch` getter (linux-loader.js lines 128 to
136): real arch for a trusted caller stack, the virtual value arm64
otherwise. -/
def archGet (env : HostEnv) (stack : List Char) : List Char :=
  if isSystemCall (callerFrames stack) then env.arch else "arm64".data

/-- Embeds the patched `process.getSystemVersion` (linux-loader.js line
155), which returns the literal 14.0.0 unconditionally.  The source
function takes no stack snapshot and consults no captured real version; the
parameters mirror the other two accessors so the three can be stated
uniformly, and are ignored exactly as the source ignores them. -/
def getSystemVersion (_env : HostEnv) (_stack : List Char) : List Char :=
  "14.0.0".data

/-- C1 counterexample: the claim that every trusted-classified access
returns the real identity value fails for the OS version accessor, which
returns the fixed virtual value 14.0.0 even for a trusted caller on a host
whose real version is 13.0.0. -/
theorem identityAccessors_claim_counterexample :
    ¬ (∀ (env : HostEnv) (stack : List Char),
        isSystemCall (callerFrames stack) = true →
        platformGet env stack = env.platform ∧ archGet env stack = env.arch ∧
        getSystemVersion env stack = env.osVersion) := by
  intro h
  have h2 := (h ⟨("linux".data), ("x64".data), ("13.0.0".data)⟩
      ("Error\nat a\nat node:internal/x".data) (by decide)).2.2
  exact absurd h2 (by decide)

/-- C1 amended: for guest-classified caller stacks all three accessors
return the fixed virtual triple darwin, arm64, 14.0.0; for
trusted-classified caller stacks the platform and arch accessors return the
real values captured at initialization, while the OS version accessor
returns the fixed virtual value 14.0.0 for every caller. -/
theorem identityAccessors_amended (env : HostEnv) (stack : List Char) :
    (isSystemCall (callerFrames stack) = false →
      platformGet env stack = "darwin".data ∧ archGet env stack = "arm64".data ∧
      getSystemVersion env stack = "14.0.0".data)
    ∧ (isSystemCall (callerFrames stack) = true →
      platformGet env stack = env.platform ∧ archGet env stack = env.arch)
    ∧ getSystemVersion env stack = "14.0.0".data := by
  refine ⟨fun h => ?_, fun h => ?_, rfl⟩ <;>
    simp [platformGet, archGet, getSystemVersion, h]

/-- Witness for C1 amended: a trusted three-line stack yields the real
platform, a guest stack yields the virtual platform. -/
theorem identityAccessors_amended_witness :
    platformGet ⟨("linux".data), ("x64".data), ("13.0.0".data)⟩
        ("Error\nat a\nat node:internal/x".data) = "linux".data
    ∧ platformGet ⟨("linux".data), ("x64".data), ("13.0.0".data)⟩
        ("Error\nat a\nat /app/main.js:1:1".data) = "darwin".data := by
  constructor
  · exact ((identityAccessors_amended _ _).2.1 (by decide)).1
  · exact ((identityAccessors_amended _ _).1 (by decide)).1

/-- Modelled from the POSIX and Node file primitives the loader wraps: a
flat file-system state.  `files` maps a path to its content, newest entry
first; `deviceTable` gives the device a path lives on (paths absent from
the table live on device 0), so that a cross-device rename is expressible;
`locked` lists paths whose deletion fails, so that the unlink step of the
fallback can fail. -/
structure FS where
  files : List (List Char × List Char)
  deviceTable : List (List Char × Nat)
  locked : List (List Char)
  deriving DecidableEq

theorem find?_key_filter_ne {β : Type} {p q : List Char} (h : q ≠ p) :
    ∀ l : List (List Char × β),
      (l.filter (fun e => !(e.1 == p))).find? (fun e => e.1 == q)
        = l.find? (fun e => e.1 == q) := by
  intro l
  induction l with
  | nil => rfl
  | cons e t ih =>
    by_cases hp : e.1 = p
    · have hq : ((e.1 == q) = true) → False := by
        intro hh
        exact h ((eq_of_beq hh) ▸ hp)
      rw [List.filter_cons_of_neg (by simp [hp]), ih,
        List.find?_cons_of_neg _ (by simpa using hq)]
    · by_cases hq : e.1 = q
      · rw [List.filter_cons_of_pos (by simp [hp]),
          List.find?_cons_of_pos _ (by simp [hq]),
          List.find?_cons_of_pos _ (by simp [hq])]
      · rw [List.filter_cons_of_pos (by simp [hp]),
          List.find?_cons_of_neg _ (by simp [hq]),
          List.find?_cons_of_neg _ (by simp [hq]), ih]

theorem find?_key_filter_self {β : Type} {p : List Char} :
    ∀ l : List (List Char × β),
      (l.filter (fun e => !(e.1 == p))).find? (fun e => e.1 == p) = none := by
  intro l
  induction l with
  | nil => rfl
  | cons e t ih =>
    by_cases hp : e.1 = p
    · rw [List.filter_cons_of_neg (by simp [hp]), ih]
    · rw [List.filter_cons_of_pos (by simp [hp]),
        List.find?_cons_of_neg _ (by simp [hp]), ih]

/-- Content stored at a path, if any. -/
def lookupFile (fs : FS) (p : List Char) : Option (List Char) :=
  (fs.files.find? (fun e => e.1 == p)).map (fun e => e.2)

/-- Device a path lives on (default device 0). -/
def deviceOf (fs : FS) (p : List Char) : Nat :=
  match fs.deviceTable.find? (fun e => e.1 == p) with
  | some e => e.2
  | none => 0

/-- Write `content` at path `p`, replacing any previous entry. -/
def setFile (fs : FS) (p content : List Char) : FS :=
  { fs with files := (p, content) :: fs.files.filter (fun e => !(e.1 == p)) }

/-- Remove the entry at path `p`. -/
def removeFile (fs : FS) (p : List Char) : FS :=
  { fs with files := fs.files.filter (fun e => !(e.1 == p)) }

/-- The cross-device error code the patched rename tests for. -/
def EXDEV : List Char := "EXDEV".data

/-- Modelled OS move primitive (the saved `originalRename` and
`originalRenameSync`): ENOENT when the source is missing, EXDEV when source
and destination live on different devices, otherwise an atomic move. -/
def renamePrim (fs : FS) (oldPath newPath : List Char) : Except (List Char) FS :=
  match lookupFile fs oldPath with
  | none => .error ("ENOENT".data)
  | some content =>
    if deviceOf fs oldPath ≠ deviceOf fs newPath then .error EXDEV
    else .ok (setFile (removeFile fs oldPath) newPath content)

/-- Modelled `fs.copyFileSync`, also standing for the read-write stream copy
of the asynchronous form: duplicates the source content at the
destination. -/
def copyFilePrim (fs : FS) (oldPath newPath : List Char) : Except (List Char) FS :=
  match lookupFile fs oldPath with
  | none => .error ("ENOENT".data)
  | some content => .ok (setFile fs newPath content)

/-- Modelled `fs.unlinkSync` and `fs.unlink`: fails if the path is missing
or locked against deletion. -/
def unlinkPrim (fs : FS) (p : List Char) : Except (List Char) FS :=
  match lookupFile fs p with
  | none => .error ("ENOENT".data)
  | some _ =>
    if p ∈ fs.locked then .error ("EPERM".data) else .ok (removeFile fs p)

/-- Embeds the patched `fs.renameSync` (linux-loader.js lines 79 to 90):
try the original move; on EXDEV copy the content and unlink the source,
letting either step raise; propagate any other error unchanged. -/
def renameSyncPatched (fs : FS) (oldPath newPath : List Char) :
    Except (List Char) FS :=
  match renamePrim fs oldPath newPath with
  | .ok fs1 => .ok fs1
  | .error e =>
    if e = EXDEV then
      match copyFilePrim fs oldPath newPath with
      | .error ce => .error ce
      | .ok fs1 => unlinkPrim fs1 oldPath
    else .error e

/-- Embeds the patched asynchronous `fs.rename` (linux-loader.js lines 62
to 77) in callback-passing style: the result is the error value handed to
the callback (`none` meaning success) paired with the final file-system
state.  On EXDEV the content is stream-copied and then
`fs.unlink(oldPath, (unlinkErr) => callback(null))` runs: the unlink
outcome is discarded and the callback always receives null once the copy
has completed. -/
def renameAsyncPatched (fs : FS) (oldPath newPath : List Char) :
    Option (List Char) × FS :=
  match renamePrim fs oldPath newPath with
  | .ok fs1 => (none, fs1)
  | .error e =>
    if e = EXDEV then
      match copyFilePrim fs oldPath newPath with
      | .error ce => (some ce, fs)
      | .ok fs1 =>
        match unlinkPrim fs1 oldPath with
        | .error _ => (none, fs1)
        | .ok fs2 => (none, fs2)
    else (some e, fs)

theorem lookupFile_setFile_self (fs : FS) (p content : List Char) :
    lookupFile (setFile fs p content) p = some content := by
  simp [lookupFile, setFile]

theorem lookupFile_setFile_other (fs : FS) {p q : List Char} (content : List Char)
    (h : q ≠ p) : lookupFile (setFile fs p content) q = lookupFile fs q := by
  have hq : (p == q) = false := by
    rw [beq_eq_false_iff_ne]
    exact fun hh => h hh.symm
  simp [lookupFile, setFile, hq, find?_key_filter_ne h]

theorem lookupFile_removeFile_self (fs : FS) (p : List Char) :
    lookupFile (removeFile fs p) p = none := by
  simp [lookupFile, removeFile, find?_key_filter_self]

theorem lookupFile_removeFile_other (fs : FS) {p q : List Char} (h : q ≠ p) :
    lookupFile (removeFile fs p) q = lookupFile fs q := by
  simp [lookupFile, removeFile, find?_key_filter_ne h]

instance {ε α : Type} [DecidableEq ε] [DecidableEq α] :
    DecidableEq (Except ε α) := fun a b =>
  match a, b with
  | .ok x, .ok y =>
    if h : x = y then Decidable.isTrue (congrArg Except.ok h)
    else Decidable.isFalse (fun hh => h (Except.ok.inj hh))
  | .ok _, .error _ => Decidable.isFalse (fun hh => Except.noConfusion hh)
  | .error _, .ok _ => Decidable.isFalse (fun hh => Except.noConfusion hh)
  | .error x, .error y =>
    if h : x = y then Decidable.isTrue (congrArg Except.error h)
    else Decidable.isFalse (fun hh => h (Except.error.inj hh))

/-- C6: the patched synchronous move first attempts the real move primitive
and returns its result on success; on the EXDEV cross-device error it runs
copy-then-unlink, and when that fallback succeeds the destination holds the
original source content and the source is gone; any other primitive error
is propagated unchanged. -/
theorem renameSyncPatched_spec (fs : FS) (oldPath newPath : List Char) :
    (∀ fs1, renamePrim fs oldPath newPath = .ok fs1 →
      renameSyncPatched fs oldPath newPath = .ok fs1)
    ∧ (renamePrim fs oldPath newPath = .error EXDEV →
      (renameSyncPatched fs oldPath newPath =
        (match copyFilePrim fs oldPath newPath with
         | .error ce => .error ce
         | .ok fs1 => unlinkPrim fs1 oldPath))
      ∧ ∀ fs2, renameSyncPatched fs oldPath newPath = .ok fs2 →
          lookupFile fs2 newPath = lookupFile fs oldPath
          ∧ lookupFile fs2 oldPath = none)
    ∧ (∀ e, renamePrim fs oldPath newPath = .error e → e ≠ EXDEV →
      renameSyncPatched fs oldPath newPath = .error e) := by
  refine ⟨fun fs1 h => by simp [renameSyncPatched, h], fun hEx => ?_,
    fun e he hnee => by simp [renameSyncPatched, he, hnee]⟩
  have hana : ∃ content, lookupFile fs oldPath = some content
      ∧ deviceOf fs oldPath ≠ deviceOf fs newPath := by
    cases hl : lookupFile fs oldPath with
    | none =>
      exfalso
      unfold renamePrim at hEx
      rw [hl] at hEx
      exact absurd (Except.error.inj hEx) (by decide)
    | some content =>
      refine ⟨content, rfl, fun hdev => ?_⟩
      unfold renamePrim at hEx
      rw [hl] at hEx
      simp [hdev] at hEx
  rcases hana with ⟨content, hl, hdev⟩
  have hne : oldPath ≠ newPath := fun heq => hdev (by rw [heq])
  have hcopy : copyFilePrim fs oldPath newPath = .ok (setFile fs newPath content) := by
    simp [copyFilePrim, hl]
  have hlookOld : lookupFile (setFile fs newPath content) oldPath = some content := by
    rw [lookupFile_setFile_other fs content hne, hl]
  constructor
  · simp [renameSyncPatched, hEx, EXDEV]
  · intro fs2 hok
    have hred : renameSyncPatched fs oldPath newPath
        = unlinkPrim (setFile fs newPath content) oldPath := by
      simp [renameSyncPatched, hEx, hcopy]
    rw [hred] at hok
    unfold unlinkPrim at hok
    rw [hlookOld] at hok
    by_cases hlock : oldPath ∈ (setFile fs newPath content).locked
    · rw [if_pos hlock] at hok
      cases hok
    · rw [if_neg hlock] at hok
      injection hok with h2
      subst h2
      refine ⟨?_, lookupFile_removeFile_self _ _⟩
      rw [lookupFile_removeFile_other _ (Ne.symm hne),
        lookupFile_setFile_self, hl]

/-- Witness for C6: moving /tmp/a (device 1) to /home/b (device 0) hits
EXDEV; after the fallback the destination holds the source content and the
source entry is gone. -/
theorem renameSyncPatched_spec_witness :
    lookupFile (FS.mk [(("/home/b".data), ("hello".data))] [(("/tmp/a".data), 1)] [])
        ("/home/b".data)
      = lookupFile (FS.mk [(("/tmp/a".data), ("hello".data))] [(("/tmp/a".data), 1)] [])
        ("/tmp/a".data)
    ∧ lookupFile (FS.mk [(("/home/b".data), ("hello".data))] [(("/tmp/a".data), 1)] [])
        ("/tmp/a".data) = none := by
  exact ((renameSyncPatched_spec
      (FS.mk [(("/tmp/a".data), ("hello".data))] [(("/tmp/a".data), 1)] [])
      ("/tmp/a".data) ("/home/b".data)).2.1 (by decide)).2 _ (by decide)

/-- C10: in the asynchronous form, once the EXDEV copy completes the
callback receives null even when the deletion of the source fails, so a
successful asynchronous move can leave the source file present alongside
the populated destination. -/
theorem renameAsyncPatched_unlink_failure (fs : FS)
    (oldPath newPath content : List Char) :
    renamePrim fs oldPath newPath = .error EXDEV →
    lookupFile fs oldPath = some content →
    oldPath ∈ fs.locked →
    (renameAsyncPatched fs oldPath newPath).1 = none
    ∧ lookupFile (renameAsyncPatched fs oldPath newPath).2 newPath = some content
    ∧ lookupFile (renameAsyncPatched fs oldPath newPath).2 oldPath = some content := by
  intro hEx hl hlock
  have hdev : deviceOf fs oldPath ≠ deviceOf fs newPath := by
    intro hdev
    unfold renamePrim at hEx
    rw [hl] at hEx
    simp [hdev] at hEx
  have hne : oldPath ≠ newPath := fun heq => hdev (by rw [heq])
  have hcopy : copyFilePrim fs oldPath newPath = .ok (setFile fs newPath content) := by
    simp [copyFilePrim, hl]
  have hlookOld : lookupFile (setFile fs newPath content) oldPath = some content := by
    rw [lookupFile_setFile_other fs content hne, hl]
  have hunl : unlinkPrim (setFile fs newPath content) oldPath
      = .error ("EPERM".data) := by
    unfold unlinkPrim
    rw [hlookOld]
    simp [setFile, hlock]
  have hred : renameAsyncPatched fs oldPath newPath
      = (none, setFile fs newPath content) := by
    simp [renameAsyncPatched, hEx, hcopy, hunl]
  rw [hred]
  exact ⟨rfl, lookupFile_setFile_self fs newPath content, hlookOld⟩

/-- Witness for C10: with the source locked against deletion, the
asynchronous move reports success while both paths hold the content. -/
theorem renameAsyncPatched_unlink_failure_witness :
    (renameAsyncPatched
        (FS.mk [(("/tmp/a".data), ("hello".data))] [(("/tmp/a".data), 1)]
          [("/tmp/a".data)])
        ("/tmp/a".data) ("/home/b".data)).1 = none
    ∧ lookupFile (renameAsyncPatched
        (FS.mk [(("/tmp/a".data), ("hello".data))] [(("/tmp/a".data), 1)]
          [("/tmp/a".data)])
        ("/tmp/a".data) ("/home/b".data)).2 ("/home/b".data) = some ("hello".data)
    ∧ lookupFile (renameAsyncPatched
        (FS.mk [(("/tmp/a".data), ("hello".data))] [(("/tmp/a".data), 1)]
          [("/tmp/a".data)])
        ("/tmp/a".data) ("/home/b".data)).2 ("/tmp/a".data) = some ("hello".data) := by
  exact renameAsyncPatched_unlink_failure _ _ _ _ (by decide) (by decide) (by decide)

/-- A loaded component, as observed by callers of the load entry point.
`stubInstance k` is the object produced by the k-th execution of the swift
stub file, so two executions yield distinct objects; `emptyObj` is the
inert empty capability object; `hostModule r` summarizes whatever the
original loader returns for request `r`. -/
inductive Component where
  | emptyObj
  | stubInstance (k : Nat)
  | hostModule (request : List Char)
  | patchedElectronModule
  deriving DecidableEq

/-- Mutable module-interception state of the loader: the memoized stub
singleton `swiftStubCache`, the reentrancy flag `loadingStub`, the count of
stub-file executions (its initialization side effects), and whether
`patchedElectron` has been set. -/
structure LoaderState where
  swiftStubCache : Option Component
  loadingStub : Bool
  stubLoads : Nat
  electronPatched : Bool
  deriving DecidableEq

/-- Embeds `STUB_PATH` (linux-loader.js line 101). -/
def STUB_PATH : List Char :=
  "/resources/stubs/@ant/claude-swift/js/index.js".data

/-- Modelled from the saved original `Module._load`: loading the stub path
re-executes the stub file (the wrapper deletes its require-cache entry
first), producing a fresh instance numbered by the execution count; any
other request yields the host module for that request. -/
def originalLoadPrim (st : LoaderState) (request : List Char) :
    Component × LoaderState :=
  if request = STUB_PATH then
    (Component.stubInstance st.stubLoads, { st with stubLoads := st.stubLoads + 1 })
  else (Component.hostModule request, st)

/-- Embeds `loadSwiftStub` (linux-loader.js lines 167 to 178), with
`stubExists` standing for `fs.existsSync(STUB_PATH)`: return the cached
singleton if present, raise if the stub source is missing, otherwise load
the stub through the original loader under the reentrancy flag and cache
it. -/
def loadSwiftStub (stubExists : Bool) (st : LoaderState) :
    Except (List Char) Component × LoaderState :=
  match st.swiftStubCache with
  | some c => (.ok c, st)
  | none =>
    if !stubExists then (.error ("Swift stub not found".data), st)
    else
      let st1 := { st with loadingStub := true }
      let p := originalLoadPrim st1 STUB_PATH
      (.ok p.1, { p.2 with loadingStub := false, swiftStubCache := some p.1 })

/-- Embeds the wrapped `Module._load` (linux-loader.js lines 182 to 196):
reentrant loads delegate to the original loader; swift_addon native
requests resolve through `loadSwiftStub`; claude-native-binding native
requests resolve to the inert empty object; `electron` resolves to the
patched module once it is set; everything else delegates to the original
loader. -/
def moduleLoad (stubExists : Bool) (st : LoaderState) (request : List Char) :
    Except (List Char) Component × LoaderState :=
  if st.loadingStub then
    ((.ok (originalLoadPrim st request).1), (originalLoadPrim st request).2)
  else if jsIncludes request ("swift_addon".data)
      && (".node".data).isSuffixOf request then
    loadSwiftStub stubExists st
  else if jsIncludes request ("claude-native-binding".data)
      && (".node".data).isSuffixOf request then
    (.ok Component.emptyObj, st)
  else if request == "electron".data && st.electronPatched then
    (.ok Component.patchedElectronModule, st)
  else
    ((.ok (originalLoadPrim st request).1), (originalLoadPrim st request).2)

/-- C7: a request matching no substitution entry delegates to the original
loader; the first swift_addon native request loads the stub once and caches
it; once cached, every later swift_addon request returns exactly the cached
instance with the state unchanged, so the stub initialization does not run
again. -/
theorem moduleLoad_spec (st : LoaderState) (request : List Char) (c : Component) :
    (st.loadingStub = false →
      (jsIncludes request ("swift_addon".data)
        && (".node".data).isSuffixOf request) = false →
      (jsIncludes request ("claude-native-binding".data)
        && (".node".data).isSuffixOf request) = false →
      (request == "electron".data && st.electronPatched) = false →
      ∀ stubExists, moduleLoad stubExists st request
        = ((.ok (originalLoadPrim st request).1), (originalLoadPrim st request).2))
    ∧ (st.loadingStub = false → st.swiftStubCache = none →
      jsIncludes request ("swift_addon".data) = true →
      (".node".data).isSuffixOf request = true →
      moduleLoad true st request
        = (.ok (Component.stubInstance st.stubLoads),
           { st with swiftStubCache := some (Component.stubInstance st.stubLoads),
                     stubLoads := st.stubLoads + 1 }))
    ∧ (st.loadingStub = false → st.swiftStubCache = some c →
      jsIncludes request ("swift_addon".data) = true →
      (".node".data).isSuffixOf request = true →
      ∀ stubExists, moduleLoad stubExists st request = (.ok c, st)) := by
  refine ⟨fun hls h1 h2 h3 stubExists => ?_, fun hls hcache h1 h2 => ?_,
    fun hls hcache h1 h2 stubExists => ?_⟩
  · simp [moduleLoad, hls, h1, h2, h3]
  · cases st with
    | mk cache loading loads patched =>
      simp only at hls hcache
      subst hls hcache
      simp [moduleLoad, h1, h2, loadSwiftStub, originalLoadPrim]
  · simp [moduleLoad, hls, h1, h2, loadSwiftStub, hcache]

/-- Witness for C7: a request with no substitution entry resolves via the
original loader; the first swift_addon request loads and caches the stub,
and a second one returns the identical cached instance without bumping the
execution count. -/
theorem moduleLoad_spec_witness :
    moduleLoad true (LoaderState.mk none false 0 false) ("nativeWidget.bin".data)
      = (.ok (Component.hostModule ("nativeWidget.bin".data)),
         LoaderState.mk none false 0 false)
    ∧ moduleLoad true (LoaderState.mk none false 0 false)
        ("/x/swift_addon.node".data)
      = (.ok (Component.stubInstance 0),
         LoaderState.mk (some (Component.stubInstance 0)) false 1 false)
    ∧ moduleLoad true (LoaderState.mk (some (Component.stubInstance 0)) false 1 false)
        ("/x/swift_addon.node".data)
      = (.ok (Component.stubInstance 0),
         LoaderState.mk (some (Component.stubInstance 0)) false 1 false) := by
  refine ⟨?_, ?_, ?_⟩
  · exact (moduleLoad_spec _ _ Component.emptyObj).1 rfl (by decide) (by decide)
      (by decide) true
  · exact (moduleLoad_spec _ _ Component.emptyObj).2.1 rfl rfl (by decide) (by decide)
  · exact (moduleLoad_spec _ _ (Component.stubInstance 0)).2.2 rfl rfl (by decide)
      (by decide) true

/-- A JavaScript value, as far as the IPC policy tables need one. -/
inductive JVal where
  | nullv
  | boolv (b : Bool)
  | numv (n : Int)
  | strv (s : List Char)
  | objv (fields : List (List Char × JVal))

/-- An IPC handler: argument list to fulfilled value or rejection value. -/
abbrev JHandler : Type := List JVal → Except JVal JVal

/-- Embeds the literal `supported` (linux-loader.js line 403). -/
def supported : JVal := .objv [(("status".data), .strv ("supported".data))]

/-- Embeds `unsupported(reason)` (linux-loader.js line 404). -/
def unsupported (reason : List Char) : JVal :=
  .objv [(("status".data), .strv ("unsupported".data)),
         (("reason".data), .strv reason)]

/-- Embeds the `AppFeatures_$_getSupportedFeatures` force override
(linux-loader.js lines 406 to 420). -/
def getSupportedFeaturesOverride : JHandler := fun _ =>
  .ok (.objv
    [(("nativeQuickEntry".data), unsupported ("linux".data)),
     (("quickEntryDictation".data), unsupported ("linux".data)),
     (("customQuickEntryDictationShortcut".data), unsupported ("linux".data)),
     (("plushRaccoon".data), supported),
     (("quietPenguin".data), supported),
     (("louderPenguin".data), supported),
     (("chillingSlothEnterprise".data), supported),
     (("chillingSlothFeat".data), supported),
     (("chillingSlothLocal".data), supported),
     (("yukonSilver".data), supported),
     (("yukonSilverGems".data), supported),
     (("desktopTopBar".data), supported),
     (("desktopVoiceDictation".data), unsupported ("linux".data))])

/-- Embeds the `AppFeatures_$_getCoworkFeatureState` force override
(linux-loader.js lines 421 to 423). -/
def getCoworkFeatureStateOverride : JHandler := fun _ =>
  .ok (.objv [(("enabled".data), .boolv true),
              (("status".data), .strv ("supported".data)),
              (("reason".data), .nullv)])

/-- Embeds the `AppFeatures_$_getYukonSilverStatus` force override
(linux-loader.js lines 424 to 426). -/
def getYukonSilverStatusOverride : JHandler := fun _ =>
  .ok (.objv [(("status".data), .strv ("supported".data))])

/-- Embeds the `AppFeatures_$_getFeatureFlags` force override
(linux-loader.js lines 427 to 429). -/
def getFeatureFlagsOverride : JHandler := fun _ =>
  .ok (.objv [(("yukonSilver".data), .boolv true),
              (("cowork".data), .boolv true),
              (("localAgentMode".data), .boolv true)])

/-- Embeds `FORCE_OVERRIDES` (linux-loader.js lines 405 to 430), in source
key order. -/
def forceOverrides : List (List Char × JHandler) :=
  [(("AppFeatures_$_getSupportedFeatures".data), getSupportedFeaturesOverride),
   (("AppFeatures_$_getCoworkFeatureState".data), getCoworkFeatureStateOverride),
   (("AppFeatures_$_getYukonSilverStatus".data), getYukonSilverStatusOverride),
   (("AppFeatures_$_getFeatureFlags".data), getFeatureFlagsOverride)]

/-- Embeds the `ClaudeVM_$_download` fallback (linux-loader.js line 433). -/
def vmDownloadFallback : JHandler := fun _ =>
  .ok (.objv [(("status".data), .strv ("ready".data)),
              (("downloaded".data), .boolv true),
              (("progress".data), .numv 100)])

/-- Embeds the `ClaudeVM_$_getDownloadStatus` fallback (line 434). -/
def vmGetDownloadStatusFallback : JHandler := fun _ =>
  .ok (.objv [(("status".data), .strv ("ready".data)),
              (("downloaded".data), .boolv true),
              (("progress".data), .numv 100),
              (("version".data), .strv ("linux-native-1.0.0".data))])

/-- Embeds the `ClaudeVM_$_getRunningStatus` fallback (line 435). -/
def vmGetRunningStatusFallback : JHandler := fun _ =>
  .ok (.objv [(("running".data), .boolv true),
              (("connected".data), .boolv true),
              (("status".data), .strv ("connected".data))])

/-- Embeds the `ClaudeVM_$_start` fallback (line 436). -/
def vmStartFallback : JHandler := fun _ =>
  .ok (.objv [(("started".data), .boolv true),
              (("status".data), .strv ("running".data))])

/-- Embeds the `ClaudeVM_$_stop` fallback (line 437). -/
def vmStopFallback : JHandler := fun _ =>
  .ok (.objv [(("stopped".data), .boolv true)])

/-- Embeds the `ClaudeVM_$_getSupportStatus` fallback (line 438). -/
def vmGetSupportStatusFallback : JHandler := fun _ =>
  .ok (.objv [(("status".data), .strv ("supported".data))])

/-- Embeds the `ClaudeCode_$_prepare` fallback (line 439). -/
def codePrepareFallback : JHandler := fun _ =>
  .ok (.objv [(("ready".data), .boolv true),
              (("status".data), .strv ("ready".data))])

/-- Embeds the `Account_$_setAccountDetails` fallback (line 440). -/
def setAccountDetailsFallback : JHandler := fun _ =>
  .ok (.objv [(("success".data), .boolv true)])

/-- Embeds the `QuickEntry_$_setRecentChats` fallback (line 441). -/
def setRecentChatsFallback : JHandler := fun _ =>
  .ok (.objv [(("success".data), .boolv true)])

/-- Embeds `ERROR_FALLBACKS` (linux-loader.js lines 432 to 442), in source
key order. -/
def errorFallbacks : List (List Char × JHandler) :=
  [(("ClaudeVM_$_download".data), vmDownloadFallback),
   (("ClaudeVM_$_getDownloadStatus".data), vmGetDownloadStatusFallback),
   (("ClaudeVM_$_getRunningStatus".data), vmGetRunningStatusFallback),
   (("ClaudeVM_$_start".data), vmStartFallback),
   (("ClaudeVM_$_stop".data), vmStopFallback),
   (("ClaudeVM_$_getSupportStatus".data), vmGetSupportStatusFallback),
   (("ClaudeCode_$_prepare".data), codePrepareFallback),
   (("Account_$_setAccountDetails".data), setAccountDetailsFallback),
   (("QuickEntry_$_setRecentChats".data), setRecentChatsFallback)]

/-- The registered-handler table of one registration surface, newest entry
first. -/
abbrev Registry : Type := List (List Char × JHandler)

/-- Modelled Electron registration primitive (the saved `origHandle`):
record the channel with its handler; the newest registration shadows older
ones. -/
def origHandle (reg : Registry) (channel : List Char) (handler : JHandler) :
    Registry :=
  (channel, handler) :: reg

/-- Modelled Electron removal primitive (the saved `origRemoveHandler`). -/
def origRemoveHandler (reg : Registry) (channel : List Char) : Registry :=
  reg.filter (fun e => !(e.1 == channel))

/-- The handler Electron would dispatch an invocation of `channel` to. -/
def lookupHandler (reg : Registry) (channel : List Char) : Option JHandler :=
  (reg.find? (fun e => e.1 == channel)).map (fun e => e.2)

/-- Embeds `safeHandler` (linux-loader.js lines 454 to 457): try the app
handler and, on a raised or rejected error, return the fallback result
instead of propagating. -/
def safeHandler (appHandler fallback : JHandler) : JHandler := fun args =>
  match appHandler args with
  | .ok v => .ok v
  | .error _ => fallback args

/-- Embeds the wrapped `ipcMain.handle` (linux-loader.js lines 447 to 462;
the per-webContents `webContents.ipc.handle` wrapper at lines 483 to 498
applies the same tables and logic): the first FORCE_OVERRIDES pattern
contained in the channel name wins and replaces the guest handler; else the
first ERROR_FALLBACKS pattern contained in it wraps the guest handler in
`safeHandler`; else the guest handler is registered unchanged. -/
def handleWrapped (reg : Registry) (channel : List Char) (handler : JHandler) :
    Registry :=
  match forceOverrides.find? (fun e => jsIncludes channel e.1) with
  | some e => origHandle reg channel e.2
  | none =>
    match errorFallbacks.find? (fun e => jsIncludes channel e.1) with
    | some e => origHandle reg channel (safeHandler handler e.2)
    | none => origHandle reg channel handler

/-- Embeds the wrapped `ipcMain.removeHandler` (linux-loader.js lines 464
to 469; the per-webContents variant at lines 500 to 506 is identical):
a removal for a channel containing any FORCE_OVERRIDES pattern is a no-op,
any other removal passes through to the original primitive. -/
def removeHandlerWrapped (reg : Registry) (channel : List Char) : Registry :=
  if forceOverrides.any (fun e => jsIncludes channel e.1) then reg
  else origRemoveHandler reg channel

/-- C2: a registration for any channel formed by an arbitrary identifier
part followed by the stable `AppFeatures_$_getSupportedFeatures` suffix
installs the force-override handler, never the guest handler; and in
general any channel containing some FORCE_OVERRIDES pattern gets a handler
from the policy table. -/
theorem handleWrapped_forceOverride (reg : Registry) (guest : JHandler)
    (idPart : List Char) :
    lookupHandler
        (handleWrapped reg (idPart ++ ("AppFeatures_$_getSupportedFeatures".data)) guest)
        (idPart ++ ("AppFeatures_$_getSupportedFeatures".data))
      = some getSupportedFeaturesOverride
    ∧ ∀ channel : List Char,
        (∃ e ∈ forceOverrides, jsIncludes channel e.1 = true) →
        ∃ e ∈ forceOverrides,
          lookupHandler (handleWrapped reg channel guest) channel = some e.2 := by
  constructor
  · have h1 : jsIncludes (idPart ++ ("AppFeatures_$_getSupportedFeatures".data))
        ("AppFeatures_$_getSupportedFeatures".data) = true :=
      jsIncludes_iff.mpr (List.suffix_append _ _).isInfix
    have hfind : forceOverrides.find?
        (fun e => jsIncludes (idPart ++ ("AppFeatures_$_getSupportedFeatures".data)) e.1)
        = some (("AppFeatures_$_getSupportedFeatures".data), getSupportedFeaturesOverride) := by
      unfold forceOverrides
      exact List.find?_cons_of_pos _ h1
    simp [handleWrapped, hfind, lookupHandler, origHandle]
  · intro channel hex
    have hsome : (forceOverrides.find? (fun e => jsIncludes channel e.1)).isSome := by
      rw [List.find?_isSome]
      rcases hex with ⟨e, he, hp⟩
      exact ⟨e, he, hp⟩
    obtain ⟨e1, hfind⟩ := Option.isSome_iff_exists.mp hsome
    refine ⟨e1, List.mem_of_find?_eq_some hfind, ?_⟩
    simp [handleWrapped, hfind, lookupHandler, origHandle]

/-- Witness for C2: a channel with a concrete identifier part before the
stable suffix registers the force-override handler. -/
theorem handleWrapped_forceOverride_witness :
    lookupHandler
        (handleWrapped [] ("u123_$_AppFeatures_$_getSupportedFeatures".data)
          (fun _ => Except.error JVal.nullv))
        ("u123_$_AppFeatures_$_getSupportedFeatures".data)
      = some getSupportedFeaturesOverride
    ∧ ∃ e ∈ forceOverrides,
        lookupHandler
            (handleWrapped [] ("u123_$_AppFeatures_$_getSupportedFeatures".data)
              (fun _ => Except.error JVal.nullv))
            ("u123_$_AppFeatures_$_getSupportedFeatures".data)
          = some e.2 := by
  constructor
  · exact (handleWrapped_forceOverride [] (fun _ => Except.error JVal.nullv)
      ("u123_$_".data)).1
  · exact (handleWrapped_forceOverride [] (fun _ => Except.error JVal.nullv)
      ("u123_$_".data)).2 ("u123_$_AppFeatures_$_getSupportedFeatures".data)
      ⟨(("AppFeatures_$_getSupportedFeatures".data), getSupportedFeaturesOverride),
        by unfold forceOverrides; exact List.mem_cons_self _ _, by decide⟩

/-- C3: for a channel matching an ERROR_FALLBACKS pattern and no
FORCE_OVERRIDES pattern, the registered effective handler is the
`safeHandler` wrapping; invoking it returns exactly the guest result when
the guest handler completes, exactly the fallback result when the guest
handler raises, and the table fallback itself always fulfills. -/
theorem handleWrapped_fallback (reg : Registry) (guest : JHandler)
    (channel : List Char) (fbe : List Char × JHandler) :
    forceOverrides.find? (fun e => jsIncludes channel e.1) = none →
    errorFallbacks.find? (fun e => jsIncludes channel e.1) = some fbe →
    lookupHandler (handleWrapped reg channel guest) channel
      = some (safeHandler guest fbe.2)
    ∧ (∀ args v, guest args = .ok v → safeHandler guest fbe.2 args = .ok v)
    ∧ (∀ args e, guest args = .error e → safeHandler guest fbe.2 args = fbe.2 args)
    ∧ (∀ args, ∃ v, fbe.2 args = .ok v) := by
  intro hno hfb
  refine ⟨?_, fun args v hok => by simp [safeHandler, hok],
    fun args e herr => by simp [safeHandler, herr], ?_⟩
  · simp [handleWrapped, hno, hfb, lookupHandler, origHandle]
  · have hmem := List.mem_of_find?_eq_some hfb
    fin_cases hmem <;> exact fun args => ⟨_, rfl⟩

/-- Witness for C3: a ClaudeVM download channel with a failing guest
handler is wrapped; invoking the wrapper on the empty argument list yields
the fallback result. -/
theorem handleWrapped_fallback_witness :
    lookupHandler
        (handleWrapped [] ("u1_$_ClaudeVM_$_download".data)
          (fun _ => Except.error JVal.nullv))
        ("u1_$_ClaudeVM_$_download".data)
      = some (safeHandler (fun _ => Except.error JVal.nullv) vmDownloadFallback)
    ∧ safeHandler (fun _ => Except.error JVal.nullv) vmDownloadFallback []
      = vmDownloadFallback [] := by
  have h := handleWrapped_fallback [] (fun _ => Except.error JVal.nullv)
    ("u1_$_ClaudeVM_$_download".data)
    (("ClaudeVM_$_download".data), vmDownloadFallback) rfl rfl
  exact ⟨h.1, h.2.2.1 [] JVal.nullv rfl⟩

/-- C4: removing a handler for a channel containing a FORCE_OVERRIDES
pattern is a no-op (also under repeated removal calls), so the override
outlives every removal request; removing any other channel passes through
to the original removal primitive unchanged. -/
theorem removeHandlerWrapped_spec (reg : Registry) (channel : List Char) :
    ((∃ e ∈ forceOverrides, jsIncludes channel e.1 = true) →
      removeHandlerWrapped reg channel = reg
      ∧ removeHandlerWrapped (removeHandlerWrapped reg channel) channel = reg)
    ∧ ((∀ e ∈ forceOverrides, jsIncludes channel e.1 = false) →
      removeHandlerWrapped reg channel = origRemoveHandler reg channel) := by
  constructor
  · intro hex
    have hany : forceOverrides.any (fun e => jsIncludes channel e.1) = true := by
      rw [List.any_eq_true]
      exact hex
    constructor <;> simp [removeHandlerWrapped, hany]
  · intro hall
    have hany : forceOverrides.any (fun e => jsIncludes channel e.1) = false := by
      rw [List.any_eq_false]
      intro e he
      simp [hall e he]
    simp [removeHandlerWrapped, hany]

/-- Witness for C4: removal of a force-overridden channel leaves the
registry unchanged; removal of an unrelated channel passes through. -/
theorem removeHandlerWrapped_spec_witness :
    removeHandlerWrapped
        [(("u9_$_AppFeatures_$_getFeatureFlags".data), getFeatureFlagsOverride)]
        ("u9_$_AppFeatures_$_getFeatureFlags".data)
      = [(("u9_$_AppFeatures_$_getFeatureFlags".data), getFeatureFlagsOverride)]
    ∧ removeHandlerWrapped
        [(("u9_$_Other_$_thing".data), getFeatureFlagsOverride)]
        ("u9_$_Other_$_thing".data)
      = origRemoveHandler
          [(("u9_$_Other_$_thing".data), getFeatureFlagsOverride)]
          ("u9_$_Other_$_thing".data) := by
  constructor
  · exact ((removeHandlerWrapped_spec _ _).1
      ⟨(("AppFeatures_$_getFeatureFlags".data), getFeatureFlagsOverride),
        by unfold forceOverrides
           exact List.mem_cons_of_mem _ (List.mem_cons_of_mem _
             (List.mem_cons_of_mem _ (List.mem_cons_self _ _))),
        by decide⟩).1
  · exact (removeHandlerWrapped_spec _ _).2
      (by intro e he; fin_cases he <;> decide)

/-- The construction-argument object handed to the intercepted
BrowserWindow constructor, restricted to the fields the construct trap
reads or writes.  `Option` marks field presence; `titleBarOverlay` and
`trafficLightPosition` only matter by presence, so they carry `Unit`. -/
structure WinOptions where
  frame : Option Bool
  transparent : Option Bool
  titleBarStyle : Option (List Char)
  titleBarOverlay : Option Unit
  trafficLightPosition : Option Unit
  autoHideMenuBar : Option Bool
  deriving DecidableEq

/-- JavaScript truthiness of `options.transparent` for the boolean values
the guest passes: absent is falsy, a present boolean is itself. -/
def transparentTruthy (o : WinOptions) : Bool :=
  match o.transparent with
  | some b => b
  | none => false

/-- Embeds the argument normalization of the BrowserWindowProxy construct
trap (linux-loader.js lines 346 to 364): when the real platform is linux,
a frameless and transparent request is left alone, any other request is
forced to a native frame with the default title bar style and without
title-bar overlay or traffic-light fields; in both cases autoHideMenuBar
is then set to true. -/
def constructOptions (realPlatform : List Char) (o : WinOptions) : WinOptions :=
  if realPlatform = "linux".data then
    let o1 :=
      if o.frame = some false ∧ transparentTruthy o = true then o
      else { o with titleBarStyle := some ("default".data), frame := some true,
                    titleBarOverlay := none, trafficLightPosition := none }
    { o1 with autoHideMenuBar := some true }
  else o

/-- C8 counterexample: the claim that a frameless transparent request
passes through to construction unmodified is false, because the trap still
sets autoHideMenuBar to true on it. -/
theorem constructOptions_claim_counterexample :
    ¬ (∀ o : WinOptions, o.frame = some false → transparentTruthy o = true →
        constructOptions ("linux".data) o = o) := by
  intro h
  have := h (WinOptions.mk (some false) (some true) none none none none) rfl rfl
  exact absurd this (by decide)

/-- C8 amended: under a real linux platform, a frameless transparent
request keeps its frame, transparency, title-bar style and overlay fields
untouched and only gains autoHideMenuBar set to true; a request with the
hidden title-bar style that is not frameless-transparent is normalized so
construction receives frame true, titleBarStyle default, and no
titleBarOverlay field. -/
theorem constructOptions_amended (o : WinOptions) :
    (o.frame = some false → transparentTruthy o = true →
      constructOptions ("linux".data) o = { o with autoHideMenuBar := some true })
    ∧ (o.titleBarStyle = some ("hidden".data) →
      ¬ (o.frame = some false ∧ transparentTruthy o = true) →
      constructOptions ("linux".data) o
        = { o with frame := some true, titleBarStyle := some ("default".data),
                   titleBarOverlay := none, trafficLightPosition := none,
                   autoHideMenuBar := some true }) := by
  constructor
  · intro h1 h2
    simp [constructOptions, h1, h2]
  · intro _ h2
    simp [constructOptions, if_neg h2]

/-- Witness for C8 amended: the Quick Entry shape only gains the menu-bar
field; the hidden-title-bar shape is normalized to a native frame. -/
theorem constructOptions_amended_witness :
    constructOptions ("linux".data)
        (WinOptions.mk (some false) (some true) none (some ()) none none)
      = WinOptions.mk (some false) (some true) none (some ()) none (some true)
    ∧ constructOptions ("linux".data)
        (WinOptions.mk none none (some ("hidden".data)) (some ()) none none)
      = WinOptions.mk (some true) none (some ("default".data)) none none (some true) := by
  constructor
  · exact (constructOptions_amended _).1 rfl rfl
  · exact (constructOptions_amended _).2 rfl (by decide)

/-- Embeds the uncaughtException guard (linux-loader.js lines 515 to 524):
`true` means the error is logged and suppressed so the process continues,
`false` means it is re-thrown and terminates the process.  `none` models an
error whose message field is undefined; an empty message string is falsy
and also re-throws. -/
def uncaughtSuppressed : Option (List Char) → Bool
  | none => false
  | some m =>
    !m.isEmpty
      && (jsIncludes m ("is not a function".data)
          || jsIncludes m ("No handler registered".data))

/-- C9: an uncaught error whose message contains one of the two recognized
substrings is suppressed; an error whose message contains neither, or that
has no message at all, is re-raised. -/
theorem uncaughtSuppressed_spec (m : List Char) :
    ((jsIncludes m ("is not a function".data) = true
        ∨ jsIncludes m ("No handler registered".data) = true) →
      uncaughtSuppressed (some m) = true)
    ∧ ((jsIncludes m ("is not a function".data) = false
        ∧ jsIncludes m ("No handler registered".data) = false) →
      uncaughtSuppressed (some m) = false)
    ∧ uncaughtSuppressed none = false := by
  refine ⟨fun h => ?_, fun h => ?_, rfl⟩
  · have hne : m.isEmpty = false := by
      cases m with
      | nil =>
        rcases h with h | h <;> simp [jsIncludes] at h
      | cons c t => rfl
    rcases h with h | h <;> simp [uncaughtSuppressed, hne, h]
  · simp [uncaughtSuppressed, h.1, h.2]

/-- Witness for C9: a missing-handler message is suppressed, an unrelated
message is re-raised. -/
theorem uncaughtSuppressed_spec_witness :
    uncaughtSuppressed (some ("Error: No handler registered for channel x".data))
      = true
    ∧ uncaughtSuppressed (some ("Error: segmentation fault".data)) = false := by
  constructor
  · exact (uncaughtSuppressed_spec _).1 (Or.inr (by decide))
  · exact (uncaughtSuppressed_spec _).2.1 (by decide)
